import Mathlib

/-!
Verification of the OpenDRIVE road extractor
(`LibCarla/source/carla/opendrive/parser/RoadParser.cpp`).

The extractor walks the road elements of a parsed XML document and, for each
one, builds a `Road` aggregate (type-speed entries, lane-offset polynomials,
lane sections, lanes) and then forwards every entity to a map-builder
interface.  We embed the document model shallowly (an XML node is a tag, an
attribute list and a child list), translate the extraction code into pure
Lean functions, and model the builder as a trace of calls.
-/

namespace Carla

/-- Modelled from the spec: the parsed XML document (out of scope for the
extractor, §1/§6 of the spec) is a tree of nodes, each with a tag, an ordered
attribute list (name/value strings) and an ordered child list. -/
inductive XmlNode : Type where
  | mk : String → List (String × String) → List XmlNode → XmlNode

def XmlNode.tag : XmlNode → String
  | .mk t _ _ => t

def XmlNode.attrs : XmlNode → List (String × String)
  | .mk _ a _ => a

def XmlNode.children : XmlNode → List XmlNode
  | .mk _ _ c => c

/-- Modelled from the spec: "read an attribute by name"; yields the raw string
of the first attribute with that name, or nothing when absent. -/
def attr (n : XmlNode) (name : String) : Option String :=
  (n.attrs.find? (fun p => p.1 == name)).map (fun p => p.2)

/-- Modelled from the spec: "fetch children of a node by tag name" — the first
child with the given tag (`pugi::xml_node::child`), or nothing. -/
def childNamed (n : XmlNode) (tag : String) : Option XmlNode :=
  n.children.find? (fun c => c.tag == tag)

/-- Modelled from the spec: all children with the given tag, in document order
(`pugi::xml_node::children(name)`). -/
def childrenNamed (n : XmlNode) (tag : String) : List XmlNode :=
  n.children.filter (fun c => c.tag == tag)

/-- Modelled from the spec: iterating the named children of a possibly-null
node (a null handle has no children). -/
def ochildren (n : Option XmlNode) (tag : String) : List XmlNode :=
  match n with
  | none => []
  | some m => childrenNamed m tag

/-- Digits of a decimal numeral, consumed left to right until the first
non-digit, accumulating the value. -/
def digitsToNat : List Char → Nat → Nat
  | [], acc => acc
  | c :: cs, acc => if c.isDigit then digitsToNat cs (10 * acc + (c.toNat - 48)) else acc

/-- Digits with remainder: value of the leading digit run and the unconsumed
characters. -/
def splitDigits : List Char → Nat → Nat × List Char
  | [], acc => (acc, [])
  | c :: cs, acc => if c.isDigit then splitDigits cs (10 * acc + (c.toNat - 48)) else (acc, c :: cs)

/-- Fractional digit run: accumulated numerator and number of digits read. -/
def fracDigits : List Char → Nat → Nat → Nat × Nat
  | [], acc, len => (acc, len)
  | c :: cs, acc, len =>
      if c.isDigit then fracDigits cs (10 * acc + (c.toNat - 48)) (len + 1) else (acc, len)

/-- Modelled from the spec: the document library's `as_int` typed coercion
("absent/invalid values coerce to type-appropriate zero defaults") — an
optional sign followed by a leading digit run; absent or digit-free text
yields 0. -/
def as_int (a : Option String) : Int :=
  match a with
  | none => 0
  | some s =>
    match s.data with
    | '-' :: cs => -(digitsToNat cs 0 : Int)
    | '+' :: cs => (digitsToNat cs 0 : Int)
    | cs => (digitsToNat cs 0 : Int)

/-- Value of an unsigned decimal literal: integer part and optional fraction.
Float rounding is not modelled (the numeric grammar is out of scope, §1); the
value is carried exactly as a rational. -/
def parseDecimal (cs : List Char) : Rat :=
  let ip := splitDigits cs 0
  match ip.2 with
  | '.' :: cs2 =>
      let f := fracDigits cs2 0 0
      ((ip.1 : Int) : Rat) + (f.1 : Rat) / ((10 ^ f.2 : Nat) : Rat)
  | _ => ((ip.1 : Int) : Rat)

/-- Modelled from the spec: the document library's `as_float` typed coercion;
absent yields 0. -/
def as_float (a : Option String) : Rat :=
  match a with
  | none => 0
  | some s =>
    match s.data with
    | '-' :: cs => -(parseDecimal cs)
    | '+' :: cs => parseDecimal cs
    | cs => parseDecimal cs

/-- Modelled from the spec: the document library's `as_bool` typed coercion;
absent yields false, otherwise the text is truthy when it starts with one of
`1 t T y Y`. -/
def as_bool (a : Option String) : Bool :=
  match a with
  | none => false
  | some s =>
    match s.data with
    | [] => false
    | c :: _ => c == '1' || c == 't' || c == 'T' || c == 'y' || c == 'Y'

/-- Modelled from the spec: the document library's `value()` string access;
absent yields the empty string. -/
def value (a : Option String) : String :=
  match a with
  | none => ""
  | some s => s

/-- RoadParser.cpp lines 20-23: a lane-offset cubic polynomial segment. -/
structure Polynomial where
  s : Rat
  a : Rat
  b : Rat
  c : Rat
  d : Rat
deriving DecidableEq

/-- RoadParser.cpp lines 25-31: a lane record. -/
structure Lane where
  id : Int
  type : String
  level : Bool
  predecessor : Int
  successor : Int
deriving DecidableEq

/-- RoadParser.cpp lines 33-37: a lane section record. -/
structure LaneSection where
  s : Rat
  a : Rat
  b : Rat
  c : Rat
  d : Rat
  lanes : List Lane
deriving DecidableEq

/-- RoadParser.cpp lines 39-44: a road type-speed record. -/
structure RoadTypeSpeed where
  s : Rat
  type : String
  max : Rat
  unit : String
deriving DecidableEq

/-- RoadParser.cpp lines 46-55: a road aggregate. -/
structure Road where
  id : Int
  name : String
  length : Rat
  junction_id : Int
  predecessor : Int
  successor : Int
  speed : List RoadTypeSpeed
  sections : List LaneSection
deriving DecidableEq

/-- RoadParser.cpp line 64: the aggregate initializer
`Road road { 0, "", 0.0, -1, -1, -1, \x7b\x7d, \x7b\x7d }`. -/
def roadInit : Road :=
  ⟨0, "", 0, -1, -1, -1, [], []⟩

/-- RoadParser.cpp lines 126 and 150: the aggregate initializer
`Lane lane { 0, "none", false, 0, 0 }`. -/
def laneInit : Lane :=
  ⟨0, "none", false, 0, 0⟩

/-- RoadParser.cpp lines 73-76: the road predecessor — `-1` unless a `link`
child with a `predecessor` child exists, in which case its `elementId`. -/
def roadPred (node_road : XmlNode) : Int :=
  match childNamed node_road "link" with
  | none => -1
  | some link =>
    match childNamed link "predecessor" with
    | none => -1
    | some p => as_int (attr p "elementId")

/-- RoadParser.cpp lines 73-78: the road successor, symmetric to `roadPred`. -/
def roadSucc (node_road : XmlNode) : Int :=
  match childNamed node_road "link" with
  | none => -1
  | some link =>
    match childNamed link "successor" with
    | none => -1
    | some p => as_int (attr p "elementId")

/-- RoadParser.cpp lines 82-97: extraction of one `type` child into a
`RoadTypeSpeed` (speed fields stay at their zero defaults without a nested
`speed` child). -/
def parseRoadTypeSpeed (node_type : XmlNode) : RoadTypeSpeed :=
  let s := as_float (attr node_type "s")
  let t := value (attr node_type "type")
  match childNamed node_type "speed" with
  | none => ⟨s, t, 0, ""⟩
  | some sp => ⟨s, t, as_float (attr sp "max"), value (attr sp "unit")⟩

/-- RoadParser.cpp lines 101-109: extraction of one `laneOffset` child into a
`Polynomial`. -/
def parsePolynomial (node_offset : XmlNode) : Polynomial :=
  ⟨as_float (attr node_offset "s"), as_float (attr node_offset "a"),
   as_float (attr node_offset "b"), as_float (attr node_offset "c"),
   as_float (attr node_offset "d")⟩

/-- RoadParser.cpp lines 133-139 (and 157-163): the lane predecessor — `0`
unless a `link` child with a `predecessor` child exists, in which case its
`id`. -/
def lanePred (node_lane : XmlNode) : Int :=
  match childNamed node_lane "link" with
  | none => 0
  | some link2 =>
    match childNamed link2 "predecessor" with
    | none => 0
    | some p => as_int (attr p "id")

/-- RoadParser.cpp lines 133-139 (and 157-163): the lane successor, symmetric
to `lanePred`. -/
def laneSucc (node_lane : XmlNode) : Int :=
  match childNamed node_lane "link" with
  | none => 0
  | some link2 =>
    match childNamed link2 "successor" with
    | none => 0
    | some p => as_int (attr p "id")

/-- RoadParser.cpp lines 125-143 and 149-172: extraction of one `lane` child
(the left-side and right-side loop bodies are identical).  Starting from the
`laneInit` aggregate, the `id`, `type` and `level` fields are overwritten
unconditionally from the attributes, the link fields only when present. -/
def parseLane (node_lane : XmlNode) : Lane :=
  { laneInit with
    id := as_int (attr node_lane "id"),
    type := value (attr node_lane "type"),
    level := as_bool (attr node_lane "level"),
    predecessor := lanePred node_lane,
    successor := laneSucc node_lane }

/-- RoadParser.cpp lines 125-172: the lane sequence of a section — all lanes
under the `left` child first, then all lanes under the `right` child, each in
document order. -/
def lanesOf (node_section : XmlNode) : List Lane :=
  (ochildren (childNamed node_section "left") "lane").map parseLane
    ++ (ochildren (childNamed node_section "right") "lane").map parseLane

/-- RoadParser.cpp lines 113-175: the lane section built from a section node
and the polynomial at the front of the FIFO queue. -/
def buildSection (node_section : XmlNode) (off : Polynomial) : LaneSection :=
  ⟨as_float (attr node_section "s"), off.a, off.b, off.c, off.d, lanesOf node_section⟩

/-- RoadParser.cpp lines 112-122: one iteration of the lane-section loop.
`lane_offsets[0]` followed by `pop_front()` on an empty deque is undefined
behaviour; the embedding returns nothing in that case and otherwise the built
section together with the remaining queue. -/
def parseLaneSection (node_section : XmlNode) :
    List Polynomial → Option (LaneSection × List Polynomial)
  | [] => none
  | off :: rest => some (buildSection node_section off, rest)

/-- RoadParser.cpp lines 112-176: the lane-section loop, threading the FIFO
queue of lane-offset polynomials through the sections in document order. -/
def parseSections : List XmlNode → List Polynomial → Option (List LaneSection)
  | [], _ => some []
  | sn :: ns, q =>
    match parseLaneSection sn q with
    | none => none
    | some sq =>
      match parseSections ns sq.2 with
      | none => none
      | some rest => some (sq.1 :: rest)

/-- RoadParser.cpp line 112: the `laneSection` children of the road's `lanes`
child, in document order. -/
def laneSectionNodes (node_road : XmlNode) : List XmlNode :=
  ochildren (childNamed node_road "lanes") "laneSection"

/-- RoadParser.cpp lines 100-109: the deque of lane-offset polynomials of a
road, in document order. -/
def laneOffsetsOf (node_road : XmlNode) : List Polynomial :=
  (ochildren (childNamed node_road "lanes") "laneOffset").map parsePolynomial

/-- RoadParser.cpp lines 63-180: extraction of one road element.  Starting
from the `roadInit` aggregate, the scalar attributes are overwritten
unconditionally, the link fields only when present; the type-speed entries
and the lane sections are collected in document order. -/
def parseRoad (node_road : XmlNode) : Option Road :=
  (parseSections (laneSectionNodes node_road) (laneOffsetsOf node_road)).map
    (fun secs =>
      { roadInit with
        id := as_int (attr node_road "id"),
        name := value (attr node_road "name"),
        length := as_float (attr node_road "length"),
        junction_id := as_int (attr node_road "junction"),
        predecessor := roadPred node_road,
        successor := roadSucc node_road,
        speed := (childrenNamed node_road "type").map parseRoadTypeSpeed,
        sections := secs })

/-- RoadParser.cpp line 63: the `road` children of the `OpenDRIVE` root, in
document order. -/
def roadNodes (xml : XmlNode) : List XmlNode :=
  ochildren (childNamed xml "OpenDRIVE") "road"

/-- RoadParser.cpp lines 61-180: the accumulation of all roads in document
order (nothing when any road's extraction hits the undefined queue pop). -/
def parseRoads : List XmlNode → Option (List Road)
  | [] => some []
  | n :: ns =>
    match parseRoad n with
    | none => none
    | some r =>
      match parseRoads ns with
      | none => none
      | some rs => some (r :: rs)

/-- One call of the map-builder interface (RoadParser.cpp lines 216-235). -/
inductive BuilderCall : Type where
  | addRoad : Int → String → Rat → Int → Int → Int → BuilderCall
  | setRoadTypeSpeed : Int → Rat → String → Rat → String → BuilderCall
  | addRoadSection : Int → Rat → Rat → Rat → Rat → Rat → BuilderCall
  | addRoadSectionLane : Int → Int → Int → String → Bool → Int → Int → BuilderCall
deriving DecidableEq

/-- RoadParser.cpp lines 224-234: the per-section builder calls — for each
section, one `AddRoadSection` with the polynomial `(a, b, c, d, s)`, then one
`AddRoadSectionLane` per lane carrying the running section index `i`. -/
def sectionCalls (rid : Int) : Int → List LaneSection → List BuilderCall
  | _, [] => []
  | i, sec :: rest =>
    BuilderCall.addRoadSection rid sec.a sec.b sec.c sec.d sec.s ::
      (sec.lanes.map (fun l =>
          BuilderCall.addRoadSectionLane rid i l.id l.type l.level l.predecessor l.successor)
        ++ sectionCalls rid (i + 1) rest)

/-- RoadParser.cpp lines 216-235: the builder calls of one road — `AddRoad`,
then the type-speed entries, then the section blocks with the index counter
starting at 0. -/
def roadCalls (r : Road) : List BuilderCall :=
  BuilderCall.addRoad r.id r.name r.length r.junction_id r.predecessor r.successor ::
    (r.speed.map (fun ts =>
        BuilderCall.setRoadTypeSpeed r.id ts.s ts.type ts.max ts.unit)
      ++ sectionCalls r.id 0 r.sections)

/-- RoadParser.cpp lines 57-236: the whole extraction — accumulate all roads,
then forward every entity to the builder, road by road. -/
def Parse (xml : XmlNode) : Option (List BuilderCall) :=
  (parseRoads (roadNodes xml)).map (fun roads => (roads.map roadCalls).flatten)

/-- Recognizer for `AddRoad` builder calls. -/
def isAddRoadB : BuilderCall → Bool
  | .addRoad _ _ _ _ _ _ => true
  | _ => false

/-- Recognizer for `AddRoadSectionLane` builder calls carrying section index
`k`. -/
def isLaneIdx (k : Int) : BuilderCall → Bool
  | .addRoadSectionLane _ i _ _ _ _ _ => i == k
  | _ => false

/-- Follows the spec's words (§4.1 forwarding pass): the section blocks of one
road, starting at index `i` — each block is one `AddRoadSection` call followed
only by `AddRoadSectionLane` calls carrying that block's index, with the index
increasing by one per block. -/
inductive SectionBlocksShape (rid : Int) : Int → List BuilderCall → Prop where
  | nil (i : Int) : SectionBlocksShape rid i []
  | block (i : Int) (a b c d s : Rat) (laneCalls rest : List BuilderCall)
      (hlanes : ∀ cl ∈ laneCalls,
        ∃ lid t lv p su, cl = BuilderCall.addRoadSectionLane rid i lid t lv p su)
      (hrest : SectionBlocksShape rid (i + 1) rest) :
      SectionBlocksShape rid i (BuilderCall.addRoadSection rid a b c d s :: (laneCalls ++ rest))

/-- Follows the spec's words (§4.1 forwarding pass): the builder-call block of
one road — one `AddRoad` call, then only `SetRoadTypeSpeed` calls, then the
section blocks indexed from 0. -/
inductive RoadBlockShape : List BuilderCall → Prop where
  | mk (rid : Int) (name : String) (len : Rat) (junc p su : Int)
      (tsCalls secCalls : List BuilderCall)
      (hts : ∀ cl ∈ tsCalls, ∃ s t m u, cl = BuilderCall.setRoadTypeSpeed rid s t m u)
      (hsec : SectionBlocksShape rid 0 secCalls) :
      RoadBlockShape (BuilderCall.addRoad rid name len junc p su :: (tsCalls ++ secCalls))

/-- Sample document: a left `lane` element with `id` and `type` attributes. -/
def lane1 : XmlNode :=
  .mk "lane" [("id", "1"), ("type", "driving")] []

/-- Sample document: a right `lane` element with `id` and `type` attributes. -/
def lane2 : XmlNode :=
  .mk "lane" [("id", "-1"), ("type", "driving")] []

/-- Sample document: a `laneSection` element with one left and one right
lane. -/
def sec1 : XmlNode :=
  .mk "laneSection" [("s", "0")] [.mk "left" [] [lane1], .mk "right" [] [lane2]]

/-- Sample document: a `laneOffset` element with all-zero coefficients. -/
def off1 : XmlNode :=
  .mk "laneOffset" [("s", "0"), ("a", "0"), ("b", "0"), ("c", "0"), ("d", "0")] []

/-- Sample document: a `road` element (no `junction` attribute, no `link`
child) with one lane offset and one lane section. -/
def road1 : XmlNode :=
  .mk "road" [("id", "10"), ("name", "r"), ("length", "50")]
    [.mk "lanes" [] [off1, sec1]]

/-- Sample document: an `OpenDRIVE` document holding `road1`. -/
def doc1 : XmlNode :=
  .mk "doc" [] [.mk "OpenDRIVE" [] [road1]]

/-- The road extracted from `road1`. -/
def r1 : Road :=
  ⟨10, "r", 50, 0, -1, -1, [],
   [⟨0, 0, 0, 0, 0, [⟨1, "driving", false, 0, 0⟩, ⟨-1, "driving", false, 0, 0⟩]⟩]⟩

/-- Sample document: a `lane` element with no `type` attribute. -/
def lane3 : XmlNode :=
  .mk "lane" [("id", "1")] []

/-- Sample document: a `laneSection` element whose only lane lacks a `type`
attribute. -/
def sec2 : XmlNode :=
  .mk "laneSection" [("s", "0")] [.mk "left" [] [lane3]]

/-- Sample document: a `road` element whose single lane has no `type`
attribute. -/
def road2 : XmlNode :=
  .mk "road" [("id", "3")] [.mk "lanes" [] [off1, sec2]]

/-- Sample document: an `OpenDRIVE` document holding `road2`. -/
def doc2 : XmlNode :=
  .mk "doc" [] [.mk "OpenDRIVE" [] [road2]]

/-- Sample document: a `laneSection` element with neither a `left` nor a
`right` child. -/
def sec3 : XmlNode :=
  .mk "laneSection" [("s", "0")] []

/-- The builder-call trace of `doc1`. -/
def calls1 : List BuilderCall :=
  [.addRoad 10 "r" 50 0 (-1) (-1),
   .addRoadSection 10 0 0 0 0 0,
   .addRoadSectionLane 10 0 1 "driving" false 0 0,
   .addRoadSectionLane 10 0 (-1) "driving" false 0 0]

theorem parseSections_isSome (ns : List XmlNode) :
    ∀ q : List Polynomial, (parseSections ns q).isSome ↔ ns.length ≤ q.length := by
  induction ns with
  | nil => intro q; simp [parseSections]
  | cons sn ns ih =>
    intro q
    cases q with
    | nil => simp [parseSections, parseLaneSection]
    | cons off rest =>
      cases h2 : parseSections ns rest with
      | none =>
        have hle : ¬ ns.length ≤ rest.length := fun hc => by
          have h3 := (ih rest).mpr hc
          rw [h2] at h3
          simp at h3
        simp [parseSections, parseLaneSection, h2]
        omega
      | some rest2 =>
        have hle := (ih rest).mp (by rw [h2]; simp)
        simp [parseSections, parseLaneSection, h2]
        omega

theorem parseSections_length :
    ∀ (ns : List XmlNode) (q : List Polynomial) (secs : List LaneSection),
      parseSections ns q = some secs → secs.length = ns.length := by
  intro ns
  induction ns with
  | nil =>
    intro q secs h
    simp [parseSections] at h
    subst h
    rfl
  | cons sn ns ih =>
    intro q secs h
    cases q with
    | nil => simp [parseSections, parseLaneSection] at h
    | cons off rest =>
      cases h2 : parseSections ns rest with
      | none => simp [parseSections, parseLaneSection, h2] at h
      | some rest2 =>
        simp [parseSections, parseLaneSection, h2] at h
        subst h
        simp [ih rest rest2 h2]

theorem parseSections_get? :
    ∀ (ns : List XmlNode) (q : List Polynomial) (secs : List LaneSection) (k : Nat)
      (sn : XmlNode), parseSections ns q = some secs → ns[k]? = some sn →
      ∃ off, q[k]? = some off ∧ secs[k]? = some (buildSection sn off) := by
  intro ns
  induction ns with
  | nil => intro q secs k sn h hk; simp at hk
  | cons sn0 ns ih =>
    intro q secs k sn h hk
    cases q with
    | nil => simp [parseSections, parseLaneSection] at h
    | cons off rest =>
      cases h2 : parseSections ns rest with
      | none => simp [parseSections, parseLaneSection, h2] at h
      | some rest2 =>
        simp [parseSections, parseLaneSection, h2] at h
        subst h
        cases k with
        | zero =>
          simp at hk
          subst hk
          exact ⟨off, by simp, by simp⟩
        | succ k =>
          simp at hk
          obtain ⟨o, ho, hsec⟩ := ih rest rest2 k sn h2 hk
          exact ⟨o, by simpa using ho, by simpa using hsec⟩

theorem parseRoad_isSome (n : XmlNode) :
    (parseRoad n).isSome ↔ (laneSectionNodes n).length ≤ (laneOffsetsOf n).length := by
  rw [← parseSections_isSome (laneSectionNodes n) (laneOffsetsOf n)]
  unfold parseRoad
  cases parseSections (laneSectionNodes n) (laneOffsetsOf n) <;> simp

theorem parseRoad_spec (n : XmlNode) (r : Road) (h : parseRoad n = some r) :
    parseSections (laneSectionNodes n) (laneOffsetsOf n) = some r.sections ∧
    r.id = as_int (attr n "id") ∧ r.name = value (attr n "name") ∧
    r.length = as_float (attr n "length") ∧ r.junction_id = as_int (attr n "junction") ∧
    r.predecessor = roadPred n ∧ r.successor = roadSucc n ∧
    r.speed = (childrenNamed n "type").map parseRoadTypeSpeed := by
  unfold parseRoad at h
  cases h2 : parseSections (laneSectionNodes n) (laneOffsetsOf n) with
  | none => rw [h2] at h; simp at h
  | some secs =>
    rw [h2] at h
    simp at h
    subst h
    simp [h2, roadInit]

theorem parseRoads_isSome (ns : List XmlNode) (h : ∀ n ∈ ns, (parseRoad n).isSome) :
    (parseRoads ns).isSome := by
  induction ns with
  | nil => simp [parseRoads]
  | cons n ns ih =>
    obtain ⟨r, hr⟩ := Option.isSome_iff_exists.mp (h n (by simp))
    obtain ⟨rs, hrs⟩ := Option.isSome_iff_exists.mp (ih (fun m hm => h m (by simp [hm])))
    simp [parseRoads, hr, hrs]

/-- C1: for a road whose `lanes` element has at least as many `laneOffset`
children as `laneSection` children, extraction succeeds, produces one section
per `laneSection` child, and the Nth lane section (document order) carries the
coefficients `a,b,c,d` of the Nth `laneOffset` polynomial (document order) —
each polynomial consumed exactly once, first-in-first-out. -/
theorem laneOffset_fifo (n : XmlNode)
    (h : (laneSectionNodes n).length ≤ (laneOffsetsOf n).length) :
    ∃ r, parseRoad n = some r ∧
      r.sections.length = (laneSectionNodes n).length ∧
      ∀ (k : Nat) (sn : XmlNode), (laneSectionNodes n)[k]? = some sn →
        ∃ sec off, r.sections[k]? = some sec ∧ (laneOffsetsOf n)[k]? = some off ∧
          sec.a = off.a ∧ sec.b = off.b ∧ sec.c = off.c ∧ sec.d = off.d := by
  obtain ⟨r, hr⟩ := Option.isSome_iff_exists.mp ((parseRoad_isSome n).mpr h)
  have hspec := (parseRoad_spec n r hr).1
  refine ⟨r, hr, parseSections_length _ _ _ hspec, ?_⟩
  intro k sn hk
  obtain ⟨off, hoff, hsec⟩ := parseSections_get? _ _ _ k sn hspec hk
  exact ⟨buildSection sn off, off, hsec, hoff, rfl, rfl, rfl, rfl⟩

theorem laneOffset_fifo_witness :
    (laneSectionNodes road1).length ≤ (laneOffsetsOf road1).length ∧
    (∃ r, parseRoad road1 = some r ∧
      r.sections.length = (laneSectionNodes road1).length ∧
      ∀ (k : Nat) (sn : XmlNode), (laneSectionNodes road1)[k]? = some sn →
        ∃ sec off, r.sections[k]? = some sec ∧ (laneOffsetsOf road1)[k]? = some off ∧
          sec.a = off.a ∧ sec.b = off.b ∧ sec.c = off.c ∧ sec.d = off.d) :=
  ⟨by decide, laneOffset_fifo road1 (by decide)⟩

/-- C3: for a document in which every road has at least as many `laneOffset`
children as `laneSection` children, every pop of the per-road polynomial FIFO
queue hits a non-empty queue: the undefined-behaviour branch is unreachable
and the whole extraction is defined. -/
theorem queue_pop_safe (xml : XmlNode)
    (h : ∀ n ∈ roadNodes xml, (laneSectionNodes n).length ≤ (laneOffsetsOf n).length) :
    (Parse xml).isSome = true := by
  unfold Parse
  obtain ⟨rs, hrs⟩ := Option.isSome_iff_exists.mp
    (parseRoads_isSome _ (fun n hn => (parseRoad_isSome n).mpr (h n hn)))
  simp [hrs]

theorem queue_pop_safe_witness :
    (∀ n ∈ roadNodes doc1, (laneSectionNodes n).length ≤ (laneOffsetsOf n).length) ∧
    (Parse doc1).isSome = true :=
  ⟨by decide, queue_pop_safe doc1 (by decide)⟩

/-- C8: the extraction is a deterministic function of the document — any two
runs over the same unchanged document yield the same builder-call trace (the
embedding is pure; the source is a single-threaded pass with no state outside
its local accumulators). -/
theorem parse_deterministic (xml : XmlNode) (c1 c2 : List BuilderCall)
    (h1 : Parse xml = some c1) (h2 : Parse xml = some c2) : c1 = c2 := by
  rw [h1] at h2
  exact Option.some.inj h2

theorem parse_deterministic_witness :
    Parse doc1 = some calls1 ∧ calls1 = calls1 :=
  ⟨by rfl, parse_deterministic doc1 calls1 calls1 (by rfl) (by rfl)⟩

/-- C9: a road element lacking the `junction` attribute yields junction id 0
in its `AddRoad` call (the `as_int` zero default), even though the `Road`
aggregate initializer designates -1 as the "not part of a junction" value. -/
theorem junction_default_zero (n : XmlNode) (r : Road)
    (hj : attr n "junction" = none) (hr : parseRoad n = some r) :
    roadInit.junction_id = -1 ∧ r.junction_id = 0 ∧
      (roadCalls r).head? =
        some (BuilderCall.addRoad r.id r.name r.length 0 r.predecessor r.successor) := by
  have hspec := parseRoad_spec n r hr
  have hj0 : r.junction_id = 0 := by rw [hspec.2.2.2.2.1, hj]; rfl
  exact ⟨rfl, hj0, by rw [roadCalls, hj0]; rfl⟩

theorem junction_default_zero_witness :
    attr road1 "junction" = none ∧ parseRoad road1 = some r1 ∧
    (roadInit.junction_id = -1 ∧ r1.junction_id = 0 ∧
      (roadCalls r1).head? =
        some (BuilderCall.addRoad r1.id r1.name r1.length 0 r1.predecessor r1.successor)) :=
  ⟨by rfl, by rfl, junction_default_zero road1 r1 (by rfl) (by rfl)⟩

/-- C2 (code bug): the `Lane` aggregate is initialized with type `"none"`,
but the initializer is unconditionally overwritten by the `type` attribute's
`value()`, which is the empty string when the attribute is absent — so a lane
element lacking `type` is forwarded with type `""`, not `"none"` (its `level`
does default to `false` and a road lacking `link` does default to
predecessor = successor = -1, as the trace shows). -/
theorem lane_type_default_empty :
    laneInit.type = "none" ∧
    Parse doc2 = some
      [BuilderCall.addRoad 3 "" 0 0 (-1) (-1),
       BuilderCall.addRoadSection 3 0 0 0 0 0,
       BuilderCall.addRoadSectionLane 3 0 1 "" false 0 0] ∧
    ("" : String) ≠ "none" :=
  ⟨rfl, by rfl, by decide⟩

theorem sectionCalls_mem (rid : Int) :
    ∀ (secs : List LaneSection) (i : Int) (cl : BuilderCall), cl ∈ sectionCalls rid i secs →
      (∃ a b c d s, cl = BuilderCall.addRoadSection rid a b c d s) ∨
      (∃ j lid t lv p su, cl = BuilderCall.addRoadSectionLane rid j lid t lv p su ∧ i ≤ j) := by
  intro secs
  induction secs with
  | nil => intro i cl h; simp [sectionCalls] at h
  | cons sec rest ih =>
    intro i cl h
    simp [sectionCalls] at h
    rcases h with h | ⟨l, _, rfl⟩ | h
    · exact Or.inl ⟨sec.a, sec.b, sec.c, sec.d, sec.s, h⟩
    · exact Or.inr ⟨i, l.id, l.type, l.level, l.predecessor, l.successor, rfl, le_refl i⟩
    · rcases ih (i + 1) cl h with h' | ⟨j, lid, t, lv, p, su, rfl, hj⟩
      · exact Or.inl h'
      · exact Or.inr ⟨j, lid, t, lv, p, su, rfl, by omega⟩

theorem filter_isAddRoadB_sectionCalls (rid : Int) (secs : List LaneSection) (i : Int) :
    (sectionCalls rid i secs).filter isAddRoadB = [] := by
  rw [List.filter_eq_nil_iff]
  intro cl hcl
  rcases sectionCalls_mem rid secs i cl hcl with ⟨a, b, c, d, s, rfl⟩ |
    ⟨j, lid, t, lv, p, su, rfl, _⟩ <;> simp [isAddRoadB]

theorem filter_isAddRoadB_roadCalls (r : Road) :
    (roadCalls r).filter isAddRoadB =
      [BuilderCall.addRoad r.id r.name r.length r.junction_id r.predecessor r.successor] := by
  have h1 : (r.speed.map (fun ts =>
      BuilderCall.setRoadTypeSpeed r.id ts.s ts.type ts.max ts.unit)).filter isAddRoadB = [] := by
    rw [List.filter_eq_nil_iff]
    intro cl hcl
    obtain ⟨ts, _, rfl⟩ := List.mem_map.mp hcl
    simp [isAddRoadB]
  simp [roadCalls, List.filter_append, h1, filter_isAddRoadB_sectionCalls, isAddRoadB]

theorem parseRoads_filter_addRoad :
    ∀ (ns : List XmlNode) (roads : List Road), parseRoads ns = some roads →
      ((roads.map roadCalls).flatten).filter isAddRoadB =
        ns.map (fun n =>
          BuilderCall.addRoad (as_int (attr n "id")) (value (attr n "name"))
            (as_float (attr n "length")) (as_int (attr n "junction"))
            (roadPred n) (roadSucc n)) := by
  intro ns
  induction ns with
  | nil =>
    intro roads h
    simp [parseRoads] at h
    subst h
    simp
  | cons n ns ih =>
    intro roads h
    cases h1 : parseRoad n with
    | none => simp [parseRoads, h1] at h
    | some r =>
      cases h2 : parseRoads ns with
      | none => simp [parseRoads, h1, h2] at h
      | some rs =>
        simp [parseRoads, h1, h2] at h
        subst h
        have hf := parseRoad_spec n r h1
        simp only [List.map_cons, List.flatten_cons, List.filter_append,
          filter_isAddRoadB_roadCalls, ih rs h2]
        rw [hf.2.1, hf.2.2.1, hf.2.2.2.1, hf.2.2.2.2.1, hf.2.2.2.2.2.1, hf.2.2.2.2.2.2.1]
        simp

/-- C5: for every document (on which the extraction is defined), the trace
contains exactly one `AddRoad` call per road element under the `OpenDRIVE`
root, in document order, whose fields are the parsed attribute values with
their type-appropriate defaults when absent. -/
theorem addRoad_per_road (xml : XmlNode) (calls : List BuilderCall)
    (h : Parse xml = some calls) :
    calls.filter isAddRoadB =
      (roadNodes xml).map (fun n =>
        BuilderCall.addRoad (as_int (attr n "id")) (value (attr n "name"))
          (as_float (attr n "length")) (as_int (attr n "junction"))
          (roadPred n) (roadSucc n)) := by
  unfold Parse at h
  cases h2 : parseRoads (roadNodes xml) with
  | none => rw [h2] at h; simp at h
  | some roads =>
    rw [h2] at h
    simp at h
    subst h
    exact parseRoads_filter_addRoad _ _ h2

theorem addRoad_per_road_witness :
    Parse doc1 = some calls1 ∧
    calls1.filter isAddRoadB =
      (roadNodes doc1).map (fun n =>
        BuilderCall.addRoad (as_int (attr n "id")) (value (attr n "name"))
          (as_float (attr n "length")) (as_int (attr n "junction"))
          (roadPred n) (roadSucc n)) :=
  ⟨by rfl, addRoad_per_road doc1 calls1 (by rfl)⟩

theorem sectionCalls_shape (rid : Int) :
    ∀ (secs : List LaneSection) (i : Int), SectionBlocksShape rid i (sectionCalls rid i secs) := by
  intro secs
  induction secs with
  | nil => intro i; exact SectionBlocksShape.nil i
  | cons sec rest ih =>
    intro i
    exact SectionBlocksShape.block i sec.a sec.b sec.c sec.d sec.s _ _
      (by
        intro cl hcl
        obtain ⟨l, _, rfl⟩ := List.mem_map.mp hcl
        exact ⟨l.id, l.type, l.level, l.predecessor, l.successor, rfl⟩)
      (ih (i + 1))

theorem roadCalls_shape (r : Road) : RoadBlockShape (roadCalls r) := by
  rw [roadCalls]
  exact RoadBlockShape.mk r.id r.name r.length r.junction_id r.predecessor r.successor _ _
    (by
      intro cl hcl
      obtain ⟨ts, _, rfl⟩ := List.mem_map.mp hcl
      exact ⟨ts.s, ts.type, ts.max, ts.unit, rfl⟩)
    (sectionCalls_shape r.id r.sections 0)

/-- C4: for every road, the builder calls come in the fixed order one
`AddRoad`, then only `SetRoadTypeSpeed` calls, then per section one
`AddRoadSection` followed only by that section's `AddRoadSectionLane` calls
(carrying the block's index, which increases from 0) — in particular a lane's
call occurs only after its owning section's `AddRoadSection`; the full trace
is the concatenation of such per-road blocks. -/
theorem builder_call_order (xml : XmlNode) (calls : List BuilderCall)
    (h : Parse xml = some calls) :
    ∃ blocks : List (List BuilderCall),
      calls = blocks.flatten ∧ ∀ b ∈ blocks, RoadBlockShape b := by
  unfold Parse at h
  cases h2 : parseRoads (roadNodes xml) with
  | none => rw [h2] at h; simp at h
  | some roads =>
    rw [h2] at h
    simp at h
    subst h
    refine ⟨roads.map roadCalls, rfl, ?_⟩
    intro b hb
    obtain ⟨r, _, rfl⟩ := List.mem_map.mp hb
    exact roadCalls_shape r

theorem builder_call_order_witness :
    Parse doc1 = some calls1 ∧
    (∃ blocks : List (List BuilderCall),
      calls1 = blocks.flatten ∧ ∀ b ∈ blocks, RoadBlockShape b) :=
  ⟨by rfl, builder_call_order doc1 calls1 (by rfl)⟩

theorem lane_call_mem_sectionCalls (rid0 : Int) :
    ∀ (secs : List LaneSection) (i rid k lid : Int) (t : String) (lv : Bool) (p su : Int),
      BuilderCall.addRoadSectionLane rid k lid t lv p su ∈ sectionCalls rid0 i secs ↔
        rid = rid0 ∧ ∃ k' : Nat, k = i + k' ∧ ∃ sec, secs[k']? = some sec ∧
          (⟨lid, t, lv, p, su⟩ : Lane) ∈ sec.lanes := by
  intro secs
  induction secs with
  | nil => intro i rid k lid t lv p su; simp [sectionCalls]
  | cons sec rest ih =>
    intro i rid k lid t lv p su
    simp only [sectionCalls, List.mem_cons, List.mem_append, List.mem_map]
    constructor
    · rintro (h | ⟨l, hl, heq⟩ | h)
      · exact absurd h (by simp)
      · obtain ⟨h1, h2, h3, h4, h5, h6, h7⟩ := BuilderCall.addRoadSectionLane.inj heq
        subst h1 h2 h3 h4 h5 h6 h7
        refine ⟨rfl, 0, by simp, sec, by simp, ?_⟩
        have : l = ⟨l.id, l.type, l.level, l.predecessor, l.successor⟩ := rfl
        rw [← this]
        exact hl
      · obtain ⟨hrid, k', hk, sec', hsec', hlane⟩ := (ih (i + 1) rid k lid t lv p su).mp h
        exact ⟨hrid, k' + 1, by push_cast; omega, sec', by simpa using hsec', hlane⟩
    · rintro ⟨rfl, k', hk, sec', hsec', hlane⟩
      cases k' with
      | zero =>
        simp at hsec'
        subst hsec'
        refine Or.inr (Or.inl ⟨⟨lid, t, lv, p, su⟩, hlane, ?_⟩)
        simp at hk
        rw [hk]
      | succ k'' =>
        refine Or.inr (Or.inr ((ih (i + 1) rid k lid t lv p su).mpr ?_))
        exact ⟨rfl, k'', by push_cast at hk ⊢; omega, sec', by simpa using hsec', hlane⟩

/-- C6: an `AddRoadSectionLane` call appears in a road's builder calls exactly
when its section index is the zero-based position of a section of that road
(in the road's section sequence, which is document order) and its lane fields
are those of a lane of that section — independent of any `s` values. -/
theorem sectionIndex_is_position (r : Road) (k lid : Int) (t : String) (lv : Bool) (p su : Int) :
    BuilderCall.addRoadSectionLane r.id k lid t lv p su ∈ roadCalls r ↔
      ∃ k' : Nat, k = k' ∧ ∃ sec, r.sections[k']? = some sec ∧
        (⟨lid, t, lv, p, su⟩ : Lane) ∈ sec.lanes := by
  rw [roadCalls]
  simp only [List.mem_cons, List.mem_append, List.mem_map]
  rw [lane_call_mem_sectionCalls]
  simp

theorem filter_isLaneIdx_sectionCalls (rid : Int) :
    ∀ (secs : List LaneSection) (i : Int) (k : Nat) (sec : LaneSection),
      secs[k]? = some sec →
      (sectionCalls rid i secs).filter (isLaneIdx (i + k)) =
        sec.lanes.map (fun l =>
          BuilderCall.addRoadSectionLane rid (i + k) l.id l.type l.level
            l.predecessor l.successor) := by
  intro secs
  induction secs with
  | nil => intro i k sec h; simp at h
  | cons sec0 rest ih =>
    intro i k sec h
    cases k with
    | zero =>
      simp at h
      subst h
      simp only [Nat.cast_zero, add_zero, sectionCalls]
      rw [List.filter_cons_of_neg (by simp [isLaneIdx])]
      rw [List.filter_append]
      have h1 : (sec0.lanes.map (fun l =>
          BuilderCall.addRoadSectionLane rid i l.id l.type l.level
            l.predecessor l.successor)).filter (isLaneIdx i) =
          sec0.lanes.map (fun l =>
            BuilderCall.addRoadSectionLane rid i l.id l.type l.level
              l.predecessor l.successor) := by
        rw [List.filter_eq_self]
        intro cl hcl
        obtain ⟨l, _, rfl⟩ := List.mem_map.mp hcl
        simp [isLaneIdx]
      have h2 : (sectionCalls rid (i + 1) rest).filter (isLaneIdx i) = [] := by
        rw [List.filter_eq_nil_iff]
        intro cl hcl
        rcases sectionCalls_mem rid rest (i + 1) cl hcl with ⟨a, b, c, d, s, rfl⟩ |
          ⟨j, lid, t, lv, p, su, rfl, hj⟩
        · simp [isLaneIdx]
        · simp [isLaneIdx]
          omega
      rw [h1, h2, List.append_nil]
    | succ k' =>
      simp at h
      have hcast : i + ((k' + 1 : Nat) : Int) = (i + 1) + (k' : Nat) := by push_cast; ring
      rw [hcast, sectionCalls]
      rw [List.filter_cons_of_neg (by simp [isLaneIdx])]
      rw [List.filter_append]
      have h1 : (sec0.lanes.map (fun l =>
          BuilderCall.addRoadSectionLane rid i l.id l.type l.level
            l.predecessor l.successor)).filter (isLaneIdx ((i + 1) + (k' : Nat))) = [] := by
        rw [List.filter_eq_nil_iff]
        intro cl hcl
        obtain ⟨l, _, rfl⟩ := List.mem_map.mp hcl
        simp [isLaneIdx]
        omega
      rw [h1, ih (i + 1) k' sec h]
      simp

/-- C7: for every parsed road and every position k of a `laneSection` child,
the k-th section's lane sequence — and hence the sequence of
`AddRoadSectionLane` calls carrying index k — is all lanes under the
section's `left` child, in document order, followed by all lanes under its
`right` child, in document order. -/
theorem lanes_left_then_right (n : XmlNode) (r : Road) (k : Nat) (sn : XmlNode)
    (hr : parseRoad n = some r) (hsn : (laneSectionNodes n)[k]? = some sn) :
    ∃ sec, r.sections[k]? = some sec ∧
      sec.lanes = (ochildren (childNamed sn "left") "lane").map parseLane
        ++ (ochildren (childNamed sn "right") "lane").map parseLane ∧
      (roadCalls r).filter (isLaneIdx (k : Nat)) =
        sec.lanes.map (fun l =>
          BuilderCall.addRoadSectionLane r.id (k : Nat) l.id l.type l.level
            l.predecessor l.successor) := by
  have hspec := (parseRoad_spec n r hr).1
  obtain ⟨off, hoff, hsec⟩ := parseSections_get? _ _ _ k sn hspec hsn
  refine ⟨buildSection sn off, hsec, rfl, ?_⟩
  rw [roadCalls]
  rw [List.filter_cons_of_neg (by simp [isLaneIdx])]
  rw [List.filter_append]
  have h1 : (r.speed.map (fun ts =>
      BuilderCall.setRoadTypeSpeed r.id ts.s ts.type ts.max ts.unit)).filter
        (isLaneIdx (k : Nat)) = [] := by
    rw [List.filter_eq_nil_iff]
    intro cl hcl
    obtain ⟨ts, _, rfl⟩ := List.mem_map.mp hcl
    simp [isLaneIdx]
  have h2 := filter_isLaneIdx_sectionCalls r.id r.sections 0 k (buildSection sn off) hsec
  simp only [zero_add] at h2
  rw [h1, h2]
  simp

theorem lanes_left_then_right_witness :
    parseRoad road1 = some r1 ∧ (laneSectionNodes road1)[0]? = some sec1 ∧
    (∃ sec, r1.sections[0]? = some sec ∧
      sec.lanes = (ochildren (childNamed sec1 "left") "lane").map parseLane
        ++ (ochildren (childNamed sec1 "right") "lane").map parseLane ∧
      (roadCalls r1).filter (isLaneIdx ((0 : Nat) : Int)) =
        sec.lanes.map (fun l =>
          BuilderCall.addRoadSectionLane r1.id ((0 : Nat) : Int) l.id l.type l.level
            l.predecessor l.successor)) :=
  ⟨by rfl, by rfl, lanes_left_then_right road1 r1 0 sec1 (by rfl) (by rfl)⟩

/-- C10: a `laneSection` element with neither a `left` nor a `right` child is
not an error: its extraction still consumes exactly one polynomial from the
road's FIFO queue, produces a section with an empty lane sequence, and its
builder block is exactly one `AddRoadSection` call with zero
`AddRoadSectionLane` calls. -/
theorem empty_section_ok (sn : XmlNode) (off : Polynomial) (rest : List Polynomial)
    (rid i : Int) (hl : childNamed sn "left" = none) (hr : childNamed sn "right" = none) :
    parseLaneSection sn (off :: rest) = some (buildSection sn off, rest) ∧
    (buildSection sn off).lanes = [] ∧
    sectionCalls rid i [buildSection sn off] =
      [BuilderCall.addRoadSection rid off.a off.b off.c off.d (as_float (attr sn "s"))] := by
  have hlanes : lanesOf sn = [] := by
    simp [lanesOf, hl, hr, ochildren]
  refine ⟨rfl, by simp [buildSection, hlanes], ?_⟩
  simp [sectionCalls, buildSection, hlanes]

theorem empty_section_ok_witness :
    childNamed sec3 "left" = none ∧ childNamed sec3 "right" = none ∧
    (parseLaneSection sec3 ((⟨0, 0, 0, 0, 0⟩ : Polynomial) :: []) =
        some (buildSection sec3 ⟨0, 0, 0, 0, 0⟩, []) ∧
      (buildSection sec3 (⟨0, 0, 0, 0, 0⟩ : Polynomial)).lanes = [] ∧
      sectionCalls 3 0 [buildSection sec3 ⟨0, 0, 0, 0, 0⟩] =
        [BuilderCall.addRoadSection 3 (0 : Rat) 0 0 0 (as_float (attr sec3 "s"))]) :=
  ⟨by rfl, by rfl, empty_section_ok sec3 ⟨0, 0, 0, 0, 0⟩ [] 3 0 (by rfl) (by rfl)⟩

end Carla
